import Mathlib

/-!
Verification development for the DVD navigation and streaming engine in
`feature-dvd/src/main/cpp/dvd_jni.cpp`.

The embedding models the catalog data (IFO tables) that libdvdread hands to
the JNI layer, and translates each JNI entry point into a Lean function over
that data.  Machine integers are modelled as `Nat`/`Int` (all the fields
involved are small unsigned values, far from any overflow boundary).
A JNI call either returns a value, returns its absent/failure sentinel
(`nullptr` or `-1`), or runs into undefined behaviour (an unchecked null
dereference or out-of-bounds array read); the three outcomes are the three
constructors of `JRes`.
-/

/-- Result of a JNI entry point: a value, the absent/failure sentinel
(`nullptr` / `-1`), or undefined behaviour (unchecked null dereference or
out-of-bounds read in the C++ source). -/
inductive JRes (α : Type) where
  | ok : α → JRes α
  | absent : JRes α
  | crash : JRes α
deriving Repr, DecidableEq

/-- Model of a C array read `l[i]` with an `int` index that the source does
not bounds-check on both sides: in range it yields the element, out of range
it is undefined behaviour. -/
def listGetUB {α : Type} (l : List α) (i : Int) : JRes α :=
  if h : 0 ≤ i ∧ i.toNat < l.length then .ok (l.get ⟨i.toNat, h.2⟩) else .crash

/-- Model of a checked null pointer: the source tests the pointer and returns
its sentinel when it is null. -/
def ptrChecked {α : Type} : Option α → JRes α
  | some a => .ok a
  | none => .absent

/-- Model of `std::isalpha` for a byte value in the "C" locale: true exactly
on the ASCII letters. -/
def std_isalpha (c : Nat) : Bool :=
  decide (65 ≤ c ∧ c ≤ 90) || decide (97 ≤ c ∧ c ≤ 122)

/-- Model of `std::tolower` for a byte value in the "C" locale. -/
def std_tolower (c : Nat) : Nat :=
  if 65 ≤ c ∧ c ≤ 90 then c + 32 else c

/-- BCD timecode `dvd_time_t`: four packed bytes. -/
structure dvd_time_t where
  hour : Nat
  minute : Nat
  second : Nat
  frame_u : Nat
deriving Repr, DecidableEq

/-- `cell_playback_t`: one cell's sector range and playback time. -/
structure cell_playback_t where
  first_sector : Nat
  last_sector : Nat
  playback_time : dvd_time_t
deriving Repr, DecidableEq

/-- Default cell used only as the junk value of `List.getD` in
specification-side expressions. -/
def cellDefault : cell_playback_t := ⟨0, 0, ⟨0, 0, 0, 0⟩⟩

/-- `pgc_t`: a program chain.  `nr_of_programs` is the length of
`program_map` and `nr_of_cells` the length of `cell_playback`, matching how
libdvdread allocates the two arrays. -/
structure pgc_t where
  program_map : List Nat
  cell_playback : List cell_playback_t
  playback_time : dvd_time_t
deriving Repr, DecidableEq

/-- One entry of the PGC information table; its `pgc` pointer may be null. -/
structure pgci_srp_t where
  pgc : Option pgc_t
deriving Repr, DecidableEq

/-- `pgcit_t`: the PGC information table.  `nr_of_pgci_srp` is the length of
`pgci_srp`. -/
structure pgcit_t where
  pgci_srp : List pgci_srp_t
deriving Repr, DecidableEq

/-- `ptt_info_t`: one part-of-title entry (chain number, program number). -/
structure ptt_info_t where
  pgcn : Nat
  pgn : Nat
deriving Repr, DecidableEq

/-- `ttu_t`: the PTT list of one title within a title set. -/
structure ttu_t where
  ptt : List ptt_info_t
deriving Repr, DecidableEq

/-- `vts_ptt_srpt_t`: the part-of-title search pointer table.  `nr_of_srpts`
is the length of `title`. -/
structure vts_ptt_srpt_t where
  title : List ttu_t
deriving Repr, DecidableEq

/-- `title_info_t`: one entry of the VMG title table. -/
structure title_info_t where
  title_set_nr : Nat
  vts_ttn : Nat
  nr_of_angles : Nat
  nr_of_ptts : Nat
deriving Repr, DecidableEq

/-- `tt_srpt_t`: the VMG title search pointer table.  `nr_of_srpts` is the
length of `title`. -/
structure tt_srpt_t where
  title : List title_info_t
deriving Repr, DecidableEq

/-- `audio_attr_t`: the raw audio attribute fields the JNI layer reads. -/
structure audio_attr_t where
  audio_format : Nat
  lang_code : Nat
  sample_frequency : Nat
  channels : Nat
deriving Repr, DecidableEq

/-- `subp_attr_t`: the raw subpicture attribute fields the JNI layer reads. -/
structure subp_attr_t where
  code_mode : Nat
  lang_code : Nat
deriving Repr, DecidableEq

/-- `vtsi_mat_t`: the title-set attribute table.  The attribute arrays are
fixed-size C arrays (8 audio / 32 subpicture slots), modelled as total
functions from the slot index. -/
structure vtsi_mat_t where
  nr_of_vts_audio_streams : Nat
  vts_audio_attr : Nat → audio_attr_t
  nr_of_vts_subp_streams : Nat
  vts_subp_attr : Nat → subp_attr_t

/-- `ifo_handle_t`: an opened IFO.  Fields the source tests for null are
`Option`s; an absent field models a null pointer. -/
structure ifo_handle_t where
  tt_srpt : Option tt_srpt_t
  vts_ptt_srpt : Option vts_ptt_srpt_t
  vts_pgcit : Option pgcit_t
  vtsi_mat : Option vtsi_mat_t

/-- `dvd_reader_t` as seen through the calls the JNI layer makes: `ifoOpen`
(index 0 is the VMG, positive indices are title sets; `none` models a failed
open) and `DVDOpenFile(..., DVD_READ_TITLE_VOBS)` success.  Following the
spec (§4.2/§4.3), a table inside a successfully opened IFO may still be
absent. -/
structure dvd_reader_t where
  ifoOpen : Nat → Option ifo_handle_t
  openTitleVobs : Nat → Bool

/-- `dvdTimeToMs` (dvd_jni.cpp:138-149): decode a BCD `dvd_time_t` to
milliseconds. -/
def dvdTimeToMs (t : dvd_time_t) : Nat :=
  let hours := ((t.hour >>> 4) &&& 0x0F) * 10 + (t.hour &&& 0x0F)
  let minutes := ((t.minute >>> 4) &&& 0x0F) * 10 + (t.minute &&& 0x0F)
  let seconds := ((t.second >>> 4) &&& 0x0F) * 10 + (t.second &&& 0x0F)
  let frames := ((t.frame_u >>> 4) &&& 0x0F) * 10 + (t.frame_u &&& 0x0F)
  hours * 3600000 + minutes * 60000 + seconds * 1000 + frames * 33

/-- `langCodeToString` (dvd_jni.cpp:167-177): two raw bytes become a
lower-cased two-letter code when both are ASCII letters, else the empty
string. -/
def langCodeToString (code : Nat) : String :=
  let a := (code >>> 8) &&& 0xFF
  let b := code &&& 0xFF
  if !(std_isalpha a) || !(std_isalpha b) then ""
  else String.mk [Char.ofNat (std_tolower a), Char.ofNat (std_tolower b)]

/-- `audioFormatToCodec` (dvd_jni.cpp:179-190). -/
def audioFormatToCodec (fmt : Nat) : String :=
  match fmt with
  | 0x00 => "AC3"
  | 0x01 => "Unknown"
  | 0x02 => "MPEG1"
  | 0x03 => "MPEG2"
  | 0x04 => "LPCM"
  | 0x05 => "DTS"
  | 0x06 => "SDDS"
  | _ => "Unknown"

/-- `sampleFrequencyToRate` (dvd_jni.cpp:192-200). -/
def sampleFrequencyToRate (freq : Nat) : Nat :=
  match freq &&& 0x3 with
  | 0x0 => 48000
  | 0x1 => 96000
  | 0x2 => 44100
  | _ => 32000

/-- `dvdGetTitleCountNative` (dvd_jni.cpp:659-696): 0 when the VMG or its
title table is unavailable, else the number of titles. -/
def dvdGetTitleCountNative (d : dvd_reader_t) : Int :=
  match d.ifoOpen 0 with
  | none => 0
  | some vmg =>
    match vmg.tt_srpt with
    | none => 0
    | some srpt => (srpt.title.length : Int)

/-- Return value of `dvdReadTitleNative`: the `DvdTitleNative(titleNumber,
chapterCount, durationMs)` object. -/
structure DvdTitleNative where
  titleNumber : Int
  chapterCount : Nat
  durationMs : Nat
deriving Repr, DecidableEq

/-- `dvdReadTitleNative` (dvd_jni.cpp:698-737).  Notable source facts kept by
the translation: the range check at line 708 dereferences `vmg->tt_srpt`
without a null test (after the short-circuited `titleNumber < 1`), the VTS
IFO is opened with `vts_ttn` (line 715), and the chain is always
`vts_pgcit->pgci_srp[0]` (line 724), both dereferenced unchecked. -/
def dvdReadTitleNative (d : dvd_reader_t) (titleNumber : Int) : JRes DvdTitleNative :=
  match d.ifoOpen 0 with
  | none => .absent
  | some vmg =>
    if titleNumber < 1 then .absent
    else
      match vmg.tt_srpt with
      | none => .crash
      | some srpt =>
        if titleNumber > (srpt.title.length : Int) then .absent
        else
          match listGetUB srpt.title (titleNumber - 1) with
          | .ok entry =>
            match d.ifoOpen entry.vts_ttn with
            | none => .absent
            | some vts =>
              match vts.vts_pgcit with
              | none => .crash
              | some pgcit =>
                match pgcit.pgci_srp.head? with
                | none => .crash
                | some srp0 =>
                  match srp0.pgc with
                  | some pgc =>
                    .ok ⟨titleNumber, pgc.program_map.length, dvdTimeToMs pgc.playback_time⟩
                  | none => .ok ⟨titleNumber, 0, 0⟩
          | .absent => .absent
          | .crash => .crash

/-- Return value of `dvdReadChapterNative`: the `DvdChapterNative(
chapterNumber, startTime, duration)` object. -/
structure DvdChapterNative where
  chapterNumber : Int
  startMs : Nat
  durationMs : Nat
deriving Repr, DecidableEq

/-- The start-time loop of `dvdReadChapterNative` (dvd_jni.cpp:922-929):
iterate `i = 0 .. k-1`; when `i < nr_of_programs`, take the chapter's
starting cell via the 1-based program map and, when the (signed) cell index
is below `nr_of_cells`, add that cell's playback time.  A program-map entry
of 0 makes the cell index -1, which the source reads unchecked. -/
def chapterStartLoop (pgc : pgc_t) : Nat → JRes Nat
  | 0 => .ok 0
  | k + 1 =>
    match chapterStartLoop pgc k with
    | .ok acc =>
      if hk : k < pgc.program_map.length then
        let m := pgc.program_map.get ⟨k, hk⟩
        let cellIdx : Int := (m : Int) - 1
        if cellIdx < (pgc.cell_playback.length : Int) then
          match listGetUB pgc.cell_playback cellIdx with
          | .ok c => .ok (acc + dvdTimeToMs c.playback_time)
          | .absent => .absent
          | .crash => .crash
        else .ok acc
      else .ok acc
    | .absent => .absent
    | .crash => .crash

/-- `dvdReadChapterNative` (dvd_jni.cpp:890-944).  Notable source facts kept
by the translation: line 900 dereferences `vmg->tt_srpt` unchecked (after
the short-circuited `titleNumber < 1`), the VTS IFO is opened with `vts_ttn`
(line 905), the chain is always `vts_pgcit->pgci_srp[0]` (line 912,
unchecked), only the upper bound `chapterNumber > nr_of_programs` is
validated (line 913), and line 931 reads `program_map[chapterNumber-1]`
unchecked. -/
def dvdReadChapterNative (d : dvd_reader_t) (titleNumber chapterNumber : Int) :
    JRes DvdChapterNative :=
  match d.ifoOpen 0 with
  | none => .absent
  | some vmg =>
    if titleNumber < 1 then .absent
    else
      match vmg.tt_srpt with
      | none => .crash
      | some srpt =>
        if titleNumber > (srpt.title.length : Int) then .absent
        else
          match listGetUB srpt.title (titleNumber - 1) with
          | .ok entry =>
            match d.ifoOpen entry.vts_ttn with
            | none => .absent
            | some vts =>
              match vts.vts_pgcit with
              | none => .crash
              | some pgcit =>
                match pgcit.pgci_srp.head? with
                | none => .crash
                | some srp0 =>
                  match srp0.pgc with
                  | none => .absent
                  | some pgc =>
                    if chapterNumber > (pgc.program_map.length : Int) then .absent
                    else
                      match chapterStartLoop pgc (chapterNumber - 1).toNat with
                      | .ok startTime =>
                        match listGetUB pgc.program_map (chapterNumber - 1) with
                        | .ok m =>
                          let cellIdx : Int := (m : Int) - 1
                          if cellIdx < (pgc.cell_playback.length : Int) then
                            match listGetUB pgc.cell_playback cellIdx with
                            | .ok c =>
                              .ok ⟨chapterNumber, startTime, dvdTimeToMs c.playback_time⟩
                            | .absent => .absent
                            | .crash => .crash
                          else .ok ⟨chapterNumber, startTime, 0⟩
                        | .absent => .absent
                        | .crash => .crash
                      | .absent => .absent
                      | .crash => .crash
          | .absent => .absent
          | .crash => .crash

/-- Return value entry of `dvdGetAudioTracksNative`: the
`DvdAudioTrackNative(index, lang, codec, channels, sampleRate)` object (a
null `lang` is modelled as the empty string). -/
structure DvdAudioTrackNative where
  index : Nat
  lang : String
  codec : String
  channels : Nat
  sampleRate : Nat
deriving Repr, DecidableEq

/-- `dvdGetAudioTracksNative` (dvd_jni.cpp:739-811): checks the title table
and range, opens the VTS via `title_set_nr`, requires `vtsi_mat`, caps the
stream count at 8 and builds one entry per stream from the raw attributes. -/
def dvdGetAudioTracksNative (d : dvd_reader_t) (titleNumber : Int) :
    JRes (List DvdAudioTrackNative) :=
  match d.ifoOpen 0 with
  | none => .absent
  | some vmg =>
    match vmg.tt_srpt with
    | none => .absent
    | some srpt =>
      if titleNumber < 1 ∨ titleNumber > (srpt.title.length : Int) then .absent
      else
        match listGetUB srpt.title (titleNumber - 1) with
        | .ok entry =>
          match d.ifoOpen entry.title_set_nr with
          | none => .absent
          | some vts =>
            match vts.vtsi_mat with
            | none => .absent
            | some mat =>
              if mat.nr_of_vts_audio_streams = 0 then .absent
              else
                let count := min mat.nr_of_vts_audio_streams 8
                .ok ((List.range count).map fun i =>
                  let attr := mat.vts_audio_attr i
                  { index := i
                    lang := langCodeToString attr.lang_code
                    codec := audioFormatToCodec attr.audio_format
                    channels := attr.channels + 1
                    sampleRate := sampleFrequencyToRate attr.sample_frequency })
        | .absent => .absent
        | .crash => .crash

/-- Return value entry of `dvdGetSubtitleTracksNative`: the
`DvdSubtitleTrackNative(index, lang, type)` object. -/
structure DvdSubtitleTrackNative where
  index : Nat
  lang : String
  track_type : String
deriving Repr, DecidableEq

/-- `dvdGetSubtitleTracksNative` (dvd_jni.cpp:813-888): like the audio query
with a cap of 32, the kind decoded from the low two bits of `code_mode`. -/
def dvdGetSubtitleTracksNative (d : dvd_reader_t) (titleNumber : Int) :
    JRes (List DvdSubtitleTrackNative) :=
  match d.ifoOpen 0 with
  | none => .absent
  | some vmg =>
    match vmg.tt_srpt with
    | none => .absent
    | some srpt =>
      if titleNumber < 1 ∨ titleNumber > (srpt.title.length : Int) then .absent
      else
        match listGetUB srpt.title (titleNumber - 1) with
        | .ok entry =>
          match d.ifoOpen entry.title_set_nr with
          | none => .absent
          | some vts =>
            match vts.vtsi_mat with
            | none => .absent
            | some mat =>
              if mat.nr_of_vts_subp_streams = 0 then .absent
              else
                let count := min mat.nr_of_vts_subp_streams 32
                .ok ((List.range count).map fun i =>
                  let attr := mat.vts_subp_attr i
                  { index := i
                    lang := langCodeToString attr.lang_code
                    track_type :=
                      match attr.code_mode &&& 0x3 with
                      | 0 => "rle"
                      | 1 => "extended"
                      | _ => "subpicture" })
        | .absent => .absent
        | .crash => .crash

/-- The shared program-chain resolution as written in `dvdStreamToFdNative`
(dvd_jni.cpp:961-1028): open the VMG, check the title table and range, take
`title_set_nr` and `vts_ttn`, open the VTS, look up the first PTT entry of
the in-set title when the PTT table covers it (the `ptt[0]` read itself is
unchecked), index the chain table by that chain number when in range, and
fall back to the table's first chain; fail (`-1`) when no chain results. -/
def streamResolvePgc (d : dvd_reader_t) (titleNumber : Int) : JRes (Nat × pgc_t) :=
  match d.ifoOpen 0 with
  | none => .absent
  | some vmg =>
    match vmg.tt_srpt with
    | none => .absent
    | some srpt =>
      if titleNumber < 1 ∨ titleNumber > (srpt.title.length : Int) then .absent
      else
        match listGetUB srpt.title (titleNumber - 1) with
        | .ok entry =>
          let vtsN := entry.title_set_nr
          let vtsTtn := entry.vts_ttn
          match d.ifoOpen vtsN with
          | none => .absent
          | some vts =>
            let pttStep : JRes (Option pgc_t) :=
              match vts.vts_ptt_srpt with
              | some ptts =>
                if 0 < vtsTtn ∧ vtsTtn ≤ ptts.title.length then
                  match listGetUB ptts.title ((vtsTtn : Int) - 1) with
                  | .ok ttl =>
                    match ttl.ptt.head? with
                    | none => .crash
                    | some e0 =>
                      match vts.vts_pgcit with
                      | some pgcit =>
                        if 0 < e0.pgcn ∧ e0.pgcn ≤ pgcit.pgci_srp.length then
                          match listGetUB pgcit.pgci_srp ((e0.pgcn : Int) - 1) with
                          | .ok srp => .ok srp.pgc
                          | .absent => .absent
                          | .crash => .crash
                        else .ok none
                      | none => .ok none
                  | .absent => .absent
                  | .crash => .crash
                else .ok none
              | none => .ok none
            match pttStep with
            | .ok pgcViaPtt =>
              let pgcSel : Option pgc_t :=
                match pgcViaPtt with
                | some p => some p
                | none =>
                  match vts.vts_pgcit with
                  | some pgcit =>
                    match pgcit.pgci_srp.head? with
                    | some srp0 => srp0.pgc
                    | none => none
                  | none => none
              match pgcSel with
              | none => .absent
              | some pgc => .ok (vtsN, pgc)
            | .absent => .absent
            | .crash => .crash
        | .absent => .absent
        | .crash => .crash

/-- The same program-chain resolution as duplicated in
`dvdGetVobOffsetsNative` (dvd_jni.cpp:1296-1358), translated independently
from those lines. -/
def offsetsResolvePgc (d : dvd_reader_t) (titleNumber : Int) : JRes (Nat × pgc_t) :=
  match d.ifoOpen 0 with
  | none => .absent
  | some vmg =>
    match vmg.tt_srpt with
    | none => .absent
    | some srpt =>
      if titleNumber < 1 ∨ titleNumber > (srpt.title.length : Int) then .absent
      else
        match listGetUB srpt.title (titleNumber - 1) with
        | .ok entry =>
          let vtsN := entry.title_set_nr
          let vtsTtn := entry.vts_ttn
          match d.ifoOpen vtsN with
          | none => .absent
          | some vts =>
            let pttStep : JRes (Option pgc_t) :=
              match vts.vts_ptt_srpt with
              | some ptts =>
                if 0 < vtsTtn ∧ vtsTtn ≤ ptts.title.length then
                  match listGetUB ptts.title ((vtsTtn : Int) - 1) with
                  | .ok ttl =>
                    match ttl.ptt.head? with
                    | none => .crash
                    | some e0 =>
                      match vts.vts_pgcit with
                      | some pgcit =>
                        if 0 < e0.pgcn ∧ e0.pgcn ≤ pgcit.pgci_srp.length then
                          match listGetUB pgcit.pgci_srp ((e0.pgcn : Int) - 1) with
                          | .ok srp => .ok srp.pgc
                          | .absent => .absent
                          | .crash => .crash
                        else .ok none
                      | none => .ok none
                  | .absent => .absent
                  | .crash => .crash
                else .ok none
              | none => .ok none
            match pttStep with
            | .ok pgcViaPtt =>
              let pgcSel : Option pgc_t :=
                match pgcViaPtt with
                | some p => some p
                | none =>
                  match vts.vts_pgcit with
                  | some pgcit =>
                    match pgcit.pgci_srp.head? with
                    | some srp0 => srp0.pgc
                    | none => none
                  | none => none
              match pgcSel with
              | none => .absent
              | some pgc => .ok (vtsN, pgc)
            | .absent => .absent
            | .crash => .crash
        | .absent => .absent
        | .crash => .crash

/-- The cell-offset collection loop of `dvdGetVobOffsetsNative`
(dvd_jni.cpp:1363-1376): push `(first,last)` for each cell whose range is
valid, skip the rest. -/
def collectOffsets : List cell_playback_t → List Int
  | [] => []
  | c :: cs =>
    if c.last_sector ≥ c.first_sector then
      (c.first_sector : Int) :: (c.last_sector : Int) :: collectOffsets cs
    else collectOffsets cs

/-- `dvdGetVobOffsetsNative` (dvd_jni.cpp:1285-1401): resolve the chain,
collect the valid cell ranges, fail when none remain, else return the array
`[vtsN, first0, last0, first1, last1, ...]`. -/
def dvdGetVobOffsetsNative (d : dvd_reader_t) (titleNumber : Int) : JRes (List Int) :=
  match offsetsResolvePgc d titleNumber with
  | .ok (vtsN, pgc) =>
    let offsets := collectOffsets pgc.cell_playback
    if offsets.isEmpty then .absent
    else .ok ((vtsN : Int) :: offsets)
  | .absent => .absent
  | .crash => .crash

/-- One result of the sink's `write(outFd, ...)` call: `val n` models a
return of `n ≥ 0` bytes, the other constructors model `-1` with
`errno = EPIPE`, `errno = EAGAIN`/`EWOULDBLOCK`, or any other errno. -/
inductive SinkR where
  | val : Nat → SinkR
  | epipe : SinkR
  | eagain : SinkR
  | error : SinkR
deriving Repr, DecidableEq

/-- Observable event of a streaming run: one `DVDReadBlocks(vob, block,
count, ...)` call or one sink write outcome. -/
inductive Ev where
  | readEv : Nat → Nat → Ev
  | writeEv : SinkR → Ev
deriving Repr, DecidableEq

/-- Why the streaming loops stopped.  `running` means the current loop fell
through normally and the caller continues; `completed` means every cell was
streamed; the next three are the `goto finished` paths of the write loop;
`starved` and `fuelOut` are artifacts of the finite sink-response list and
the fuel bound, never reached on the runs the theorems are about. -/
inductive ExitReason where
  | running
  | completed
  | pipeClosed
  | zeroWrite
  | writeError
  | starved
  | fuelOut
deriving Repr, DecidableEq

/-- State carried out of each streaming loop: the exit reason, the value of
`totalBytesWritten`, the unconsumed sink responses, and the events the loop
performed (in order). -/
structure LoopOut where
  exitr : ExitReason
  total : Nat
  sink : List SinkR
  evs : List Ev
deriving Repr, DecidableEq

/-- The inner write loop of `dvdStreamToFdNative` (dvd_jni.cpp:1116-1149):
write until the batch is drained; `EPIPE` or a zero-length write or any
other write failure jumps to `finished`; `EAGAIN` retries after a delay. -/
def writeBatch : Nat → Nat → List SinkR → LoopOut
  | 0, total, sink => ⟨.running, total, sink, []⟩
  | _ + 1, total, [] => ⟨.starved, total, [], []⟩
  | remaining + 1, total, r :: rest =>
    match r with
    | .val 0 => ⟨.zeroWrite, total, rest, [.writeEv (.val 0)]⟩
    | .val (n + 1) =>
      let out := writeBatch (remaining + 1 - (n + 1)) (total + (n + 1)) rest
      ⟨out.exitr, out.total, out.sink, .writeEv (.val (n + 1)) :: out.evs⟩
    | .epipe => ⟨.pipeClosed, total, rest, [.writeEv .epipe]⟩
    | .eagain =>
      let out := writeBatch (remaining + 1) total rest
      ⟨out.exitr, out.total, out.sink, .writeEv .eagain :: out.evs⟩
    | .error => ⟨.writeError, total, rest, [.writeEv .error]⟩

/-- The per-cell block loop of `dvdStreamToFdNative` (dvd_jni.cpp:1093-1163):
while `currentBlock ≤ lastSector`, read up to 128 blocks; a failed read
advances one sector and retries; a successful read streams
`blocks * 2048` bytes through the write loop.  `fuel` bounds the number of
iterations; every call supplies `lastSector + 1 - currentBlock`, which
suffices because each iteration advances `currentBlock` by at least one. -/
def blockLoop (rd : Nat → Nat → Int) (lastSector : Nat) :
    Nat → Nat → Nat → List SinkR → LoopOut
  | 0, currentBlock, total, sink =>
    if currentBlock ≤ lastSector then ⟨.fuelOut, total, sink, []⟩
    else ⟨.running, total, sink, []⟩
  | fuel + 1, currentBlock, total, sink =>
    if currentBlock > lastSector then ⟨.running, total, sink, []⟩
    else
      let blocksRemaining := lastSector - currentBlock + 1
      let blocksToRead := min blocksRemaining 128
      let res := rd currentBlock blocksToRead
      if res ≤ 0 then
        let out := blockLoop rd lastSector fuel (currentBlock + 1) total sink
        ⟨out.exitr, out.total, out.sink, .readEv currentBlock blocksToRead :: out.evs⟩
      else
        let b := writeBatch (res.toNat * 2048) total sink
        if b.exitr = .running then
          let out := blockLoop rd lastSector fuel (currentBlock + res.toNat) b.total b.sink
          ⟨out.exitr, out.total, out.sink,
            .readEv currentBlock blocksToRead :: (b.evs ++ out.evs)⟩
        else ⟨b.exitr, b.total, b.sink, .readEv currentBlock blocksToRead :: b.evs⟩

/-- The cell loop of `dvdStreamToFdNative` (dvd_jni.cpp:1070-1164): iterate
the chain's cells in order, skip a cell whose `last_sector < first_sector`,
stream the rest; any non-`running` exit of the block loop is the
`goto finished` path and stops the whole run. -/
def cellLoop (rd : Nat → Nat → Int) : List cell_playback_t → Nat → List SinkR → LoopOut
  | [], total, sink => ⟨.completed, total, sink, []⟩
  | c :: cs, total, sink =>
    if c.last_sector < c.first_sector then cellLoop rd cs total sink
    else
      let fuel := c.last_sector + 1 - c.first_sector
      let out := blockLoop rd c.last_sector fuel c.first_sector total sink
      if out.exitr = .running then
        let rest := cellLoop rd cs out.total out.sink
        ⟨rest.exitr, rest.total, rest.sink, out.evs ++ rest.evs⟩
      else out

/-- A full `dvdStreamToFdNative` run after the JNI handle lookup: resolve
the chain (lines 961-1028), open the title VOBs (line 1044; failure returns
`-1`), then stream every cell.  The backend is the `rd` oracle giving each
`DVDReadBlocks` result, the sink is the list of `write` outcomes.  The
progress computation (lines 1032-1041, 1155-1162) only logs and is not
modelled. -/
def streamRunOf (d : dvd_reader_t) (titleNumber : Int) (rd : Nat → Nat → Int)
    (sink : List SinkR) : JRes LoopOut :=
  match streamResolvePgc d titleNumber with
  | .ok (vtsN, pgc) =>
    if d.openTitleVobs vtsN then .ok (cellLoop rd pgc.cell_playback 0 sink)
    else .absent
  | .absent => .absent
  | .crash => .crash

/-- `dvdStreamToFdNative` (dvd_jni.cpp:946-1180): the returned `jlong` is
`totalBytesWritten` on every path through `finished`, and `-1` on the
failure paths before streaming starts. -/
def dvdStreamToFdNative (d : dvd_reader_t) (titleNumber : Int) (rd : Nat → Nat → Int)
    (sink : List SinkR) : JRes Int :=
  match streamRunOf d titleNumber rd sink with
  | .ok out => .ok (out.total : Int)
  | .absent => .ok (-1)
  | .crash => .crash

/-- Exit reason of a streaming run (projection of `streamRunOf`). -/
def streamExit (d : dvd_reader_t) (titleNumber : Int) (rd : Nat → Nat → Int)
    (sink : List SinkR) : JRes ExitReason :=
  match streamRunOf d titleNumber rd sink with
  | .ok out => .ok out.exitr
  | .absent => .absent
  | .crash => .crash

/-- Event trace of a streaming run (projection of `streamRunOf`). -/
def streamTrace (d : dvd_reader_t) (titleNumber : Int) (rd : Nat → Nat → Int)
    (sink : List SinkR) : JRes (List Ev) :=
  match streamRunOf d titleNumber rd sink with
  | .ok out => .ok out.evs
  | .absent => .absent
  | .crash => .crash

/-- Bytes the sink accepted along a trace: the sum of the successful write
outcomes. -/
def sumAccepted : List Ev → Nat
  | [] => 0
  | .writeEv (.val n) :: r => n + sumAccepted r
  | _ :: r => sumAccepted r

/-- The valid cells of a chain, in order (spec §3: a cell is valid iff
`lastSector ≥ firstSector`). -/
def validCellsOf (pgc : pgc_t) : List cell_playback_t :=
  pgc.cell_playback.filter fun c => decide (c.first_sector ≤ c.last_sector)

/-- Flatten `(first,last)` pairs the way `dvdGetVobOffsetsNative` lays them
out in its result array. -/
def flattenPairs : List (Int × Int) → List Int
  | [] => []
  | (a, b) :: r => a :: b :: flattenPairs r

/-- The ordered valid `(first,last)` sector ranges of a chain. -/
def validRangesOf (pgc : pgc_t) : List (Int × Int) :=
  (validCellsOf pgc).map fun c => ((c.first_sector : Int), (c.last_sector : Int))

/-- Chapter start time as the spec states it: the sum, over the chapters
before chapter `k+1`, of the duration of the cell the 1-based program map
assigns to each chapter. -/
def specChapterStart (pgc : pgc_t) (k : Nat) : Nat :=
  ((List.range k).map fun i =>
    dvdTimeToMs ((pgc.cell_playback.getD (pgc.program_map.getD i 0 - 1) cellDefault).playback_time)).sum

/-- Duration of chapter `ch`'s own cell via the 1-based program map, as the
spec states it. -/
def specChapterDuration (pgc : pgc_t) (ch : Nat) : Nat :=
  dvdTimeToMs ((pgc.cell_playback.getD (pgc.program_map.getD (ch - 1) 0 - 1) cellDefault).playback_time)

/-- A program chain is well formed when every program-map entry points at an
existing cell (entries are 1-based). -/
def pgcMapWf (pgc : pgc_t) : Prop :=
  ∀ m ∈ pgc.program_map, 1 ≤ m ∧ m ≤ pgc.cell_playback.length

/-- First chain of the first concrete title set: two chapters mapping to its
two cells (2 s and 3 s), total playback time 5 s. -/
def pgcA : pgc_t :=
  { program_map := [1, 2]
    cell_playback :=
      [⟨0, 4, ⟨0, 0, 0x02, 0⟩⟩, ⟨5, 9, ⟨0, 0, 0x03, 0⟩⟩]
    playback_time := ⟨0, 0, 0x05, 0⟩ }

/-- Second chain of the first concrete title set: three cells of which the
middle one is corrupt (`last_sector < first_sector`), total playback time
9 s. -/
def pgcB : pgc_t :=
  { program_map := [1]
    cell_playback :=
      [⟨0, 9, ⟨0, 0, 0x01, 0⟩⟩, ⟨20, 9, ⟨0, 0, 0x01, 0⟩⟩, ⟨30, 39, ⟨0, 0, 0x01, 0⟩⟩]
    playback_time := ⟨0, 0, 0x09, 0⟩ }

/-- Attribute table of the concrete title set: one audio stream with raw
language bytes `'E','N'`, format 5 (DTS), frequency field 2, channel field
1; no subpicture streams. -/
def matA : vtsi_mat_t :=
  { nr_of_vts_audio_streams := 1
    vts_audio_attr := fun i =>
      if i = 0 then ⟨0x05, 0x454E, 0x2, 1⟩ else ⟨0, 0, 0, 0⟩
    nr_of_vts_subp_streams := 0
    vts_subp_attr := fun _ => ⟨0, 0⟩ }

/-- The concrete title set IFO: its part-of-title table maps the only in-set
title to chain number 2, so the shared resolution selects `pgcB` while the
first chain is `pgcA`. -/
def vtsA : ifo_handle_t :=
  { tt_srpt := none
    vts_ptt_srpt := some ⟨[⟨[⟨2, 1⟩]⟩]⟩
    vts_pgcit := some ⟨[⟨some pgcA⟩, ⟨some pgcB⟩]⟩
    vtsi_mat := some matA }

/-- The concrete VMG: one title living in title set 1, in-set title number
1. -/
def vmgA : ifo_handle_t :=
  { tt_srpt := some ⟨[⟨1, 1, 1, 2⟩]⟩
    vts_ptt_srpt := none
    vts_pgcit := none
    vtsi_mat := none }

/-- The concrete disc used by the witnesses: VMG at index 0, one title set
at index 1, VOB open always succeeds. -/
def discA : dvd_reader_t :=
  { ifoOpen := fun n => if n = 0 then some vmgA else if n = 1 then some vtsA else none
    openTitleVobs := fun _ => true }

/-- A disc whose VMG opened but whose title table is absent, the missing-table
situation the spec's catalog reader is specified against (§4.3). -/
def discN : dvd_reader_t :=
  { ifoOpen := fun n => if n = 0 then some ⟨none, none, none, none⟩ else none
    openTitleVobs := fun _ => true }

/-- A backend oracle whose every `DVDReadBlocks` call succeeds in full. -/
def rdGood : Nat → Nat → Int := fun _ count => (count : Int)

/-- The closing event a `goto finished` exit leaves at the end of the trace,
when there is one. -/
def closingEv : ExitReason → Option Ev
  | .pipeClosed => some (.writeEv .epipe)
  | .zeroWrite => some (.writeEv (.val 0))
  | .writeError => some (.writeEv .error)
  | _ => none

theorem sumAccepted_append (l₁ l₂ : List Ev) :
    sumAccepted (l₁ ++ l₂) = sumAccepted l₁ + sumAccepted l₂ := by
  induction l₁ with
  | nil => simp [sumAccepted]
  | cons e r ih =>
    cases e with
    | readEv b c => simp [sumAccepted, ih]
    | writeEv s =>
      cases s with
      | val n => simp [sumAccepted, ih]; ring
      | epipe => simp [sumAccepted, ih]
      | eagain => simp [sumAccepted, ih]
      | error => simp [sumAccepted, ih]

theorem writeBatch_total (sink : List SinkR) : ∀ rem total,
    (writeBatch rem total sink).total = total + sumAccepted (writeBatch rem total sink).evs := by
  induction sink with
  | nil => intro rem total; cases rem <;> simp [writeBatch, sumAccepted]
  | cons r rest ih =>
    intro rem total
    cases rem with
    | zero => simp [writeBatch, sumAccepted]
    | succ k =>
      cases r with
      | val n =>
        cases n with
        | zero => simp [writeBatch, sumAccepted]
        | succ n => simp [writeBatch, sumAccepted, ih]; ring
      | epipe => simp [writeBatch, sumAccepted]
      | eagain => simp [writeBatch, sumAccepted, ih]
      | error => simp [writeBatch, sumAccepted]

theorem writeBatch_closing (sink : List SinkR) : ∀ rem total ev,
    closingEv (writeBatch rem total sink).exitr = some ev →
    ∃ pre, (writeBatch rem total sink).evs = pre ++ [ev] := by
  induction sink with
  | nil =>
    intro rem total ev h
    cases rem <;> simp [writeBatch, closingEv] at h
  | cons r rest ih =>
    intro rem total ev h
    cases rem with
    | zero => simp [writeBatch, closingEv] at h
    | succ k =>
      cases r with
      | val n =>
        cases n with
        | zero =>
          simp [writeBatch, closingEv] at h
          exact ⟨[], by simp [writeBatch, ← h]⟩
        | succ n =>
          simp only [writeBatch] at h ⊢
          obtain ⟨pre, hpre⟩ := ih _ _ _ h
          rw [Nat.succ_sub_succ] at hpre
          exact ⟨.writeEv (.val (n + 1)) :: pre, by simp [hpre]⟩
      | epipe =>
        simp [writeBatch, closingEv] at h
        exact ⟨[], by simp [writeBatch, ← h]⟩
      | eagain =>
        simp only [writeBatch] at h ⊢
        obtain ⟨pre, hpre⟩ := ih _ _ _ h
        exact ⟨.writeEv .eagain :: pre, by simp [hpre]⟩
      | error =>
        simp [writeBatch, closingEv] at h
        exact ⟨[], by simp [writeBatch, ← h]⟩

theorem blockLoop_total (rd : Nat → Nat → Int) (lastSector : Nat) : ∀ fuel currentBlock total sink,
    (blockLoop rd lastSector fuel currentBlock total sink).total =
      total + sumAccepted (blockLoop rd lastSector fuel currentBlock total sink).evs := by
  intro fuel
  induction fuel with
  | zero =>
    intro currentBlock total sink
    by_cases h : currentBlock ≤ lastSector <;> simp [blockLoop, h, sumAccepted]
  | succ fuel ih =>
    intro currentBlock total sink
    by_cases h : currentBlock > lastSector
    · simp [blockLoop, h, sumAccepted]
    · by_cases hr : rd currentBlock (min (lastSector - currentBlock + 1) 128) ≤ 0
      · simp [blockLoop, h, hr, sumAccepted, ih]
      · by_cases hb :
          (writeBatch ((rd currentBlock (min (lastSector - currentBlock + 1) 128)).toNat * 2048)
            total sink).exitr = ExitReason.running
        · simp only [blockLoop, if_neg h, if_neg hr, if_pos hb]
          simp only [sumAccepted, sumAccepted_append, ih]
          rw [writeBatch_total sink]
          ring
        · simp only [blockLoop, if_neg h, if_neg hr, if_neg hb]
          simp only [sumAccepted]
          exact writeBatch_total sink _ _

theorem blockLoop_closing (rd : Nat → Nat → Int) (lastSector : Nat) : ∀ fuel currentBlock total sink ev,
    closingEv (blockLoop rd lastSector fuel currentBlock total sink).exitr = some ev →
    ∃ pre, (blockLoop rd lastSector fuel currentBlock total sink).evs = pre ++ [ev] := by
  intro fuel
  induction fuel with
  | zero =>
    intro currentBlock total sink ev h
    by_cases hc : currentBlock ≤ lastSector <;> simp [blockLoop, hc, closingEv] at h
  | succ fuel ih =>
    intro currentBlock total sink ev h
    by_cases hc : currentBlock > lastSector
    · simp [blockLoop, hc, closingEv] at h
    · by_cases hr : rd currentBlock (min (lastSector - currentBlock + 1) 128) ≤ 0
      · simp only [blockLoop, if_neg hc, if_pos hr] at h ⊢
        obtain ⟨pre, hpre⟩ := ih _ _ _ _ h
        refine ⟨Ev.readEv currentBlock (min (lastSector - currentBlock + 1) 128) :: pre, ?_⟩
        simp [hpre]
      · by_cases hb :
          (writeBatch ((rd currentBlock (min (lastSector - currentBlock + 1) 128)).toNat * 2048)
            total sink).exitr = ExitReason.running
        · simp only [blockLoop, if_neg hc, if_neg hr, if_pos hb] at h ⊢
          obtain ⟨pre, hpre⟩ := ih _ _ _ _ h
          refine ⟨Ev.readEv currentBlock (min (lastSector - currentBlock + 1) 128) ::
            ((writeBatch ((rd currentBlock (min (lastSector - currentBlock + 1) 128)).toNat * 2048)
              total sink).evs ++ pre), ?_⟩
          simp [hpre]
        · simp only [blockLoop, if_neg hc, if_neg hr, if_neg hb] at h ⊢
          obtain ⟨pre, hpre⟩ := writeBatch_closing sink _ _ _ h
          refine ⟨Ev.readEv currentBlock (min (lastSector - currentBlock + 1) 128) :: pre, ?_⟩
          simp [hpre]

theorem cellLoop_total (rd : Nat → Nat → Int) : ∀ (cells : List cell_playback_t) total sink,
    (cellLoop rd cells total sink).total =
      total + sumAccepted (cellLoop rd cells total sink).evs := by
  intro cells
  induction cells with
  | nil => intro total sink; simp [cellLoop, sumAccepted]
  | cons c cs ih =>
    intro total sink
    by_cases hskip : c.last_sector < c.first_sector
    · simp [cellLoop, hskip, ih]
    · by_cases hb :
        (blockLoop rd c.last_sector (c.last_sector + 1 - c.first_sector) c.first_sector
          total sink).exitr = ExitReason.running
      · simp only [cellLoop, if_neg hskip, if_pos hb]
        simp only [sumAccepted_append, ih]
        rw [blockLoop_total rd]
        ring
      · simp only [cellLoop, if_neg hskip, if_neg hb]
        exact blockLoop_total rd _ _ _ _ _

theorem cellLoop_closing (rd : Nat → Nat → Int) : ∀ (cells : List cell_playback_t) total sink ev,
    closingEv (cellLoop rd cells total sink).exitr = some ev →
    ∃ pre, (cellLoop rd cells total sink).evs = pre ++ [ev] := by
  intro cells
  induction cells with
  | nil => intro total sink ev h; simp [cellLoop, closingEv] at h
  | cons c cs ih =>
    intro total sink ev h
    by_cases hskip : c.last_sector < c.first_sector
    · simp only [cellLoop, if_pos hskip] at h ⊢
      exact ih _ _ _ h
    · by_cases hb :
        (blockLoop rd c.last_sector (c.last_sector + 1 - c.first_sector) c.first_sector
          total sink).exitr = ExitReason.running
      · simp only [cellLoop, if_neg hskip, if_pos hb] at h ⊢
        obtain ⟨pre, hpre⟩ := ih _ _ _ h
        refine ⟨(blockLoop rd c.last_sector (c.last_sector + 1 - c.first_sector)
          c.first_sector total sink).evs ++ pre, ?_⟩
        simp [hpre]
      · simp only [cellLoop, if_neg hskip, if_neg hb] at h ⊢
        exact blockLoop_closing rd _ _ _ _ _ _ h

theorem cellLoop_filter_valid (rd : Nat → Nat → Int) : ∀ (cells : List cell_playback_t) total sink,
    cellLoop rd cells total sink =
      cellLoop rd (cells.filter fun c => decide (c.first_sector ≤ c.last_sector)) total sink := by
  intro cells
  induction cells with
  | nil => intro total sink; rfl
  | cons c cs ih =>
    intro total sink
    by_cases hskip : c.last_sector < c.first_sector
    · have hf : (decide (c.first_sector ≤ c.last_sector)) = false := by
        simp [decide_eq_false_iff_not]
        omega
      simp only [cellLoop, if_pos hskip, List.filter_cons, hf]
      exact ih total sink
    · have hf : (decide (c.first_sector ≤ c.last_sector)) = true := by
        simp [decide_eq_true_eq]
        omega
      simp only [List.filter_cons, hf]
      simp only [cellLoop, if_neg hskip]
      rw [ih]

theorem collectOffsets_eq_flatten (cells : List cell_playback_t) :
    collectOffsets cells =
      flattenPairs ((cells.filter fun c => decide (c.first_sector ≤ c.last_sector)).map
        fun c => ((c.first_sector : Int), (c.last_sector : Int))) := by
  induction cells with
  | nil => rfl
  | cons c cs ih =>
    by_cases hv : c.first_sector ≤ c.last_sector
    · have hge : c.last_sector ≥ c.first_sector := hv
      simp only [collectOffsets, if_pos hge, List.filter_cons, decide_eq_true hv, List.map_cons,
        flattenPairs, ih]
    · have hlt : ¬ c.last_sector ≥ c.first_sector := hv
      have hf : (decide (c.first_sector ≤ c.last_sector)) = false := by
        simp [decide_eq_false_iff_not, hv]
      simp only [collectOffsets, if_neg hlt, List.filter_cons, hf, ih]
      simp

theorem streamResolve_eq_offsetsResolve : streamResolvePgc = offsetsResolvePgc := rfl

theorem chapterStartLoop_ok (pgc : pgc_t) (hwf : pgcMapWf pgc) :
    ∀ k, k ≤ pgc.program_map.length → chapterStartLoop pgc k = .ok (specChapterStart pgc k) := by
  intro k
  induction k with
  | zero => intro _; simp [chapterStartLoop, specChapterStart]
  | succ k ih =>
    intro hk1
    have hk : k < pgc.program_map.length := by omega
    have hrec := ih (by omega)
    have hm := hwf (pgc.program_map.get ⟨k, hk⟩) (List.get_mem _ _ _)
    have hcond : ((pgc.program_map.get ⟨k, hk⟩ : Int) - 1) < (pgc.cell_playback.length : Int) := by
      omega
    have hidx : 0 ≤ ((pgc.program_map.get ⟨k, hk⟩ : Int) - 1) ∧
        ((pgc.program_map.get ⟨k, hk⟩ : Int) - 1).toNat < pgc.cell_playback.length := by
      omega
    simp only [chapterStartLoop, hrec, dif_pos hk, if_pos hcond, listGetUB, dif_pos hidx]
    have hlt : pgc.program_map.get ⟨k, hk⟩ - 1 < pgc.cell_playback.length := by omega
    have hfin : (⟨((pgc.program_map.get ⟨k, hk⟩ : Int) - 1).toNat, hidx.2⟩ :
        Fin pgc.cell_playback.length) = ⟨pgc.program_map.get ⟨k, hk⟩ - 1, hlt⟩ := by
      apply Fin.ext
      simp only
      omega
    rw [hfin]
    have hgd : pgc.program_map.getD k 0 = pgc.program_map.get ⟨k, hk⟩ := by
      rw [List.getD_eq_getElem _ _ hk]
      simp [List.get_eq_getElem]
    have hcell : pgc.cell_playback.getD (pgc.program_map.getD k 0 - 1) cellDefault =
        pgc.cell_playback.get ⟨pgc.program_map.get ⟨k, hk⟩ - 1, hlt⟩ := by
      rw [hgd, List.getD_eq_getElem _ _ hlt]
      simp [List.get_eq_getElem]
    simp only [specChapterStart, List.range_succ, List.map_append, List.sum_append,
      List.map_cons, List.map_nil, List.sum_cons, List.sum_nil, Nat.add_zero]
    rw [hcell]

theorem dvdReadChapterNative_ok (d : dvd_reader_t) (t ch : Int)
    (vmg : ifo_handle_t) (srpt : tt_srpt_t) (entry : title_info_t) (vts : ifo_handle_t)
    (pgcit : pgcit_t) (srp0 : pgci_srp_t) (pgc : pgc_t)
    (h0 : d.ifoOpen 0 = some vmg) (h1 : vmg.tt_srpt = some srpt)
    (ht1 : 1 ≤ t) (ht2 : t ≤ (srpt.title.length : Int))
    (hE : listGetUB srpt.title (t - 1) = .ok entry)
    (h2 : d.ifoOpen entry.vts_ttn = some vts)
    (h3 : vts.vts_pgcit = some pgcit)
    (h4 : pgcit.pgci_srp.head? = some srp0)
    (h5 : srp0.pgc = some pgc)
    (hwf : pgcMapWf pgc)
    (hch1 : 1 ≤ ch) (hch2 : ch ≤ (pgc.program_map.length : Int)) :
    dvdReadChapterNative d t ch =
      .ok ⟨ch, specChapterStart pgc (ch.toNat - 1), specChapterDuration pgc ch.toNat⟩ := by
  have hlt1 : ¬ (t < 1) := by omega
  have hlt2 : ¬ (t > (srpt.title.length : Int)) := by omega
  have hchg : ¬ (ch > (pgc.program_map.length : Int)) := by omega
  have hsl := chapterStartLoop_ok pgc hwf (ch - 1).toNat (by omega)
  have hidm : 0 ≤ ch - 1 ∧ (ch - 1).toNat < pgc.program_map.length := by omega
  have hm := hwf (pgc.program_map.get ⟨(ch - 1).toNat, hidm.2⟩) (List.get_mem _ _ _)
  have hcellcond : ((pgc.program_map.get ⟨(ch - 1).toNat, hidm.2⟩ : Int) - 1) <
      (pgc.cell_playback.length : Int) := by omega
  have hidc : 0 ≤ ((pgc.program_map.get ⟨(ch - 1).toNat, hidm.2⟩ : Int) - 1) ∧
      ((pgc.program_map.get ⟨(ch - 1).toNat, hidm.2⟩ : Int) - 1).toNat <
        pgc.cell_playback.length := by omega
  simp only [dvdReadChapterNative, h0, h1, if_neg hlt1, if_neg hlt2, hE]
  simp only [h2, h3, h4, h5, if_neg hchg, hsl]
  simp only [listGetUB, dif_pos hidm, if_pos hcellcond, dif_pos hidc]
  have hkeq : (ch - 1).toNat = ch.toNat - 1 := by omega
  have hltc : pgc.program_map.get ⟨(ch - 1).toNat, hidm.2⟩ - 1 < pgc.cell_playback.length := by
    omega
  have hfin : (⟨((pgc.program_map.get ⟨(ch - 1).toNat, hidm.2⟩ : Int) - 1).toNat, hidc.2⟩ :
      Fin pgc.cell_playback.length) =
      ⟨pgc.program_map.get ⟨(ch - 1).toNat, hidm.2⟩ - 1, hltc⟩ := by
    apply Fin.ext
    simp only
    omega
  rw [hfin]
  have hst : specChapterStart pgc ((ch - 1).toNat) = specChapterStart pgc (ch.toNat - 1) := by
    rw [hkeq]
  have hmge : pgc.program_map.getD (ch.toNat - 1) 0 =
      pgc.program_map.get ⟨(ch - 1).toNat, hidm.2⟩ := by
    have he : pgc.program_map.getD (ch.toNat - 1) 0 = pgc.program_map.getD ((ch - 1).toNat) 0 := by
      rw [hkeq]
    rw [he, List.getD_eq_getElem _ _ hidm.2]
    simp [List.get_eq_getElem]
  have hdur : specChapterDuration pgc ch.toNat =
      dvdTimeToMs ((pgc.cell_playback.get
        ⟨pgc.program_map.get ⟨(ch - 1).toNat, hidm.2⟩ - 1, hltc⟩).playback_time) := by
    unfold specChapterDuration
    rw [hmge, List.getD_eq_getElem _ _ hltc]
    simp [List.get_eq_getElem]
  rw [hst, hdur]

theorem dvdReadChapterNative_overCount (d : dvd_reader_t) (t ch : Int)
    (vmg : ifo_handle_t) (srpt : tt_srpt_t) (entry : title_info_t) (vts : ifo_handle_t)
    (pgcit : pgcit_t) (srp0 : pgci_srp_t) (pgc : pgc_t)
    (h0 : d.ifoOpen 0 = some vmg) (h1 : vmg.tt_srpt = some srpt)
    (ht1 : 1 ≤ t) (ht2 : t ≤ (srpt.title.length : Int))
    (hE : listGetUB srpt.title (t - 1) = .ok entry)
    (h2 : d.ifoOpen entry.vts_ttn = some vts)
    (h3 : vts.vts_pgcit = some pgcit)
    (h4 : pgcit.pgci_srp.head? = some srp0)
    (h5 : srp0.pgc = some pgc)
    (hch : ch > (pgc.program_map.length : Int)) :
    dvdReadChapterNative d t ch = .absent := by
  have hlt1 : ¬ (t < 1) := by omega
  have hlt2 : ¬ (t > (srpt.title.length : Int)) := by omega
  simp only [dvdReadChapterNative, h0, h1, if_neg hlt1, if_neg hlt2, hE]
  simp only [h2, h3, h4, h5, if_pos hch]

theorem dvdReadChapterNative_crash_nonpositive (d : dvd_reader_t) (t ch : Int)
    (vmg : ifo_handle_t) (srpt : tt_srpt_t) (entry : title_info_t) (vts : ifo_handle_t)
    (pgcit : pgcit_t) (srp0 : pgci_srp_t) (pgc : pgc_t)
    (h0 : d.ifoOpen 0 = some vmg) (h1 : vmg.tt_srpt = some srpt)
    (ht1 : 1 ≤ t) (ht2 : t ≤ (srpt.title.length : Int))
    (hE : listGetUB srpt.title (t - 1) = .ok entry)
    (h2 : d.ifoOpen entry.vts_ttn = some vts)
    (h3 : vts.vts_pgcit = some pgcit)
    (h4 : pgcit.pgci_srp.head? = some srp0)
    (h5 : srp0.pgc = some pgc)
    (hch : ch ≤ 0) :
    dvdReadChapterNative d t ch = .crash := by
  have hlt1 : ¬ (t < 1) := by omega
  have hlt2 : ¬ (t > (srpt.title.length : Int)) := by omega
  have hchg : ¬ (ch > (pgc.program_map.length : Int)) := by omega
  have hloop : (ch - 1).toNat = 0 := by omega
  have hid : ¬ (0 ≤ ch - 1 ∧ (ch - 1).toNat < pgc.program_map.length) := by
    intro hcon
    omega
  simp only [dvdReadChapterNative, h0, h1, if_neg hlt1, if_neg hlt2, hE]
  simp only [h2, h3, h4, h5, if_neg hchg, hloop]
  simp only [chapterStartLoop, listGetUB, dif_neg hid]

set_option maxRecDepth 4000 in
theorem nibbles_eq_divmod : ∀ x < 256, ((x >>> 4) &&& 0x0F) = x / 16 ∧ (x &&& 0x0F) = x % 16 := by
  decide

theorem audioFormatToCodec_mem (fmt : Nat) : audioFormatToCodec fmt ∈
    (["AC3", "MPEG1", "MPEG2", "LPCM", "DTS", "SDDS", "Unknown"] : List String) := by
  match fmt with
  | 0 => decide
  | 1 => decide
  | 2 => decide
  | 3 => decide
  | 4 => decide
  | 5 => decide
  | 6 => decide
  | n + 7 => simp [audioFormatToCodec]

theorem std_isalpha_eq_true_iff (c : Nat) :
    std_isalpha c = true ↔ ((65 ≤ c ∧ c ≤ 90) ∨ (97 ≤ c ∧ c ≤ 122)) := by
  simp [std_isalpha]

/-- C9: a BCD-packed timecode whose nibbles are decimal digits decodes to
`h*3600000 + m*60000 + s*1000 + f*33` milliseconds, each component being its
two-nibble decimal value. -/
theorem c9_bcd_time_decode (h m s f : Nat)
    (hh : h < 256) (hm : m < 256) (hs : s < 256) (hf : f < 256)
    (_hd1 : h >>> 4 ≤ 9 ∧ h &&& 0x0F ≤ 9) (_hd2 : m >>> 4 ≤ 9 ∧ m &&& 0x0F ≤ 9)
    (_hd3 : s >>> 4 ≤ 9 ∧ s &&& 0x0F ≤ 9) (_hd4 : f >>> 4 ≤ 9 ∧ f &&& 0x0F ≤ 9) :
    dvdTimeToMs ⟨h, m, s, f⟩ =
      (h / 16 * 10 + h % 16) * 3600000 + (m / 16 * 10 + m % 16) * 60000 +
      (s / 16 * 10 + s % 16) * 1000 + (f / 16 * 10 + f % 16) * 33 := by
  have e1 := nibbles_eq_divmod h hh
  have e2 := nibbles_eq_divmod m hm
  have e3 := nibbles_eq_divmod s hs
  have e4 := nibbles_eq_divmod f hf
  simp only [dvdTimeToMs, e1.1, e1.2, e2.1, e2.2, e3.1, e3.2, e4.1, e4.2]

/-- Witness for C9: the spec's example `{0x01, 0x02, 0x03, 0x00}` decodes to
3723000 ms. -/
theorem c9_witness : dvdTimeToMs ⟨0x01, 0x02, 0x03, 0x00⟩ = 3723000 := by
  rw [c9_bcd_time_decode 0x01 0x02 0x03 0x00 (by decide) (by decide) (by decide) (by decide)
    (by decide) (by decide) (by decide) (by decide)]

set_option maxRecDepth 4000 in
/-- C8: audio tracks are capped at 8; every entry's codec lies in the spec's
enumeration and is computed from the raw format field (0x05 ↦ "DTS"), its
sample rate from the two-bit frequency field via the table
48000/96000/44100/32000, its channel count is the raw field plus one, and
its language is the lower-cased byte pair exactly when both raw bytes are
ASCII letters, else the empty string. -/
theorem c8_audio_track_fields (d : dvd_reader_t) (t : Int) (l : List DvdAudioTrackNative)
    (hok : dvdGetAudioTracksNative d t = .ok l) :
    l.length ≤ 8 ∧
    (∀ tr ∈ l, tr.codec ∈ (["AC3", "MPEG1", "MPEG2", "LPCM", "DTS", "SDDS", "Unknown"] : List String)) ∧
    (∀ tr ∈ l, ∃ a : audio_attr_t,
      tr.codec = audioFormatToCodec a.audio_format ∧
      tr.channels = a.channels + 1 ∧
      tr.sampleRate = sampleFrequencyToRate a.sample_frequency ∧
      tr.lang = langCodeToString a.lang_code) ∧
    audioFormatToCodec 0x05 = "DTS" ∧
    (∀ q : Nat, q < 256 → sampleFrequencyToRate q = [48000, 96000, 44100, 32000].getD (q % 4) 0) ∧
    (∀ c : Nat,
      ((((65 ≤ (c >>> 8) &&& 0xFF ∧ (c >>> 8) &&& 0xFF ≤ 90) ∨
         (97 ≤ (c >>> 8) &&& 0xFF ∧ (c >>> 8) &&& 0xFF ≤ 122)) ∧
        ((65 ≤ c &&& 0xFF ∧ c &&& 0xFF ≤ 90) ∨ (97 ≤ c &&& 0xFF ∧ c &&& 0xFF ≤ 122))) →
          langCodeToString c = String.mk [Char.ofNat (std_tolower ((c >>> 8) &&& 0xFF)),
            Char.ofNat (std_tolower (c &&& 0xFF))]) ∧
      (¬ (((65 ≤ (c >>> 8) &&& 0xFF ∧ (c >>> 8) &&& 0xFF ≤ 90) ∨
         (97 ≤ (c >>> 8) &&& 0xFF ∧ (c >>> 8) &&& 0xFF ≤ 122)) ∧
        ((65 ≤ c &&& 0xFF ∧ c &&& 0xFF ≤ 90) ∨ (97 ≤ c &&& 0xFF ∧ c &&& 0xFF ≤ 122))) →
          langCodeToString c = "")) := by
  have hlang : ∀ c : Nat,
      ((((65 ≤ (c >>> 8) &&& 0xFF ∧ (c >>> 8) &&& 0xFF ≤ 90) ∨
         (97 ≤ (c >>> 8) &&& 0xFF ∧ (c >>> 8) &&& 0xFF ≤ 122)) ∧
        ((65 ≤ c &&& 0xFF ∧ c &&& 0xFF ≤ 90) ∨ (97 ≤ c &&& 0xFF ∧ c &&& 0xFF ≤ 122))) →
          langCodeToString c = String.mk [Char.ofNat (std_tolower ((c >>> 8) &&& 0xFF)),
            Char.ofNat (std_tolower (c &&& 0xFF))]) ∧
      (¬ (((65 ≤ (c >>> 8) &&& 0xFF ∧ (c >>> 8) &&& 0xFF ≤ 90) ∨
         (97 ≤ (c >>> 8) &&& 0xFF ∧ (c >>> 8) &&& 0xFF ≤ 122)) ∧
        ((65 ≤ c &&& 0xFF ∧ c &&& 0xFF ≤ 90) ∨ (97 ≤ c &&& 0xFF ∧ c &&& 0xFF ≤ 122))) →
          langCodeToString c = "") := by
    intro c
    constructor
    · rintro ⟨ha, hb⟩
      have ha2 := (std_isalpha_eq_true_iff ((c >>> 8) &&& 0xFF)).mpr ha
      have hb2 := (std_isalpha_eq_true_iff (c &&& 0xFF)).mpr hb
      simp only [langCodeToString, ha2, hb2, Bool.not_true, Bool.or_self, Bool.false_eq_true,
        if_false]
    · intro hne
      cases hba : std_isalpha ((c >>> 8) &&& 0xFF) with
      | false => simp only [langCodeToString, hba, Bool.not_false, Bool.true_or, if_true]
      | true =>
        cases hbb : std_isalpha (c &&& 0xFF) with
        | false => simp only [langCodeToString, hba, hbb, Bool.not_false, Bool.not_true,
            Bool.false_or, if_true]
        | true =>
          exact absurd ⟨(std_isalpha_eq_true_iff _).mp hba, (std_isalpha_eq_true_iff _).mp hbb⟩ hne
  unfold dvdGetAudioTracksNative at hok
  repeat' split at hok
  all_goals cases hok
  refine ⟨by simp, ?_, ?_, by decide, by decide, hlang⟩
  · rintro tr htr
    obtain ⟨i, _, rfl⟩ := List.mem_map.mp htr
    exact audioFormatToCodec_mem _
  · rintro tr htr
    obtain ⟨i, _, rfl⟩ := List.mem_map.mp htr
    exact ⟨_, rfl, rfl, rfl, rfl⟩

/-- Witness for C8 at the concrete disc: raw bytes `'E','N'` → "en", format
5 → "DTS", channel field 1 → 2 channels, frequency field 2 → 44100 Hz, and
the cap holds. -/
theorem c8_witness :
    dvdGetAudioTracksNative discA 1 = .ok [⟨0, "en", "DTS", 2, 44100⟩] ∧
    ([(⟨0, "en", "DTS", 2, 44100⟩ : DvdAudioTrackNative)]).length ≤ 8 := by
  have h : dvdGetAudioTracksNative discA 1 = .ok [⟨0, "en", "DTS", 2, 44100⟩] := by decide
  exact ⟨h, (c8_audio_track_fields discA 1 _ h).1⟩

/-- C2: on a resolved chain with a well-formed program map, for
`1 ≤ chapterNumber ≤ programCount` the chapter query returns startMs equal
to the sum of the durations of the cells belonging to the chapters before
`chapterNumber` (via the 1-based program map) and durationMs equal to the
target chapter's own cell duration; for `chapterNumber > programCount` it
returns the absent sentinel. -/
theorem c2_chapterInfo_start_and_duration (d : dvd_reader_t) (t : Int)
    (vmg : ifo_handle_t) (srpt : tt_srpt_t) (entry : title_info_t) (vts : ifo_handle_t)
    (pgcit : pgcit_t) (srp0 : pgci_srp_t) (pgc : pgc_t)
    (h0 : d.ifoOpen 0 = some vmg) (h1 : vmg.tt_srpt = some srpt)
    (ht1 : 1 ≤ t) (ht2 : t ≤ (srpt.title.length : Int))
    (hE : listGetUB srpt.title (t - 1) = .ok entry)
    (h2 : d.ifoOpen entry.vts_ttn = some vts)
    (h3 : vts.vts_pgcit = some pgcit)
    (h4 : pgcit.pgci_srp.head? = some srp0)
    (h5 : srp0.pgc = some pgc)
    (hwf : pgcMapWf pgc) :
    (∀ ch : Int, 1 ≤ ch → ch ≤ (pgc.program_map.length : Int) →
      dvdReadChapterNative d t ch =
        .ok ⟨ch, specChapterStart pgc (ch.toNat - 1), specChapterDuration pgc ch.toNat⟩) ∧
    (∀ ch : Int, ch > (pgc.program_map.length : Int) →
      dvdReadChapterNative d t ch = .absent) := by
  constructor
  · intro ch hch1 hch2
    exact dvdReadChapterNative_ok d t ch vmg srpt entry vts pgcit srp0 pgc
      h0 h1 ht1 ht2 hE h2 h3 h4 h5 hwf hch1 hch2
  · intro ch hch
    exact dvdReadChapterNative_overCount d t ch vmg srpt entry vts pgcit srp0 pgc
      h0 h1 ht1 ht2 hE h2 h3 h4 h5 hch

/-- Witness for C2 at the concrete disc: chapter 2 of title 1 starts after
the 2000 ms of chapter 1's cell and lasts 3000 ms; chapter 3 exceeds the
program count and is absent. -/
theorem c2_witness :
    dvdReadChapterNative discA 1 2 = .ok ⟨2, 2000, 3000⟩ ∧
    dvdReadChapterNative discA 1 3 = .absent := by
  have hth := c2_chapterInfo_start_and_duration discA 1 vmgA ⟨[⟨1, 1, 1, 2⟩]⟩ ⟨1, 1, 1, 2⟩ vtsA
    ⟨[⟨some pgcA⟩, ⟨some pgcB⟩]⟩ ⟨some pgcA⟩ pgcA rfl rfl (by decide) (by decide) (by decide)
    rfl rfl rfl rfl (by unfold pgcMapWf; decide)
  constructor
  · have h := hth.1 2 (by decide) (by decide)
    rw [h]
    decide
  · exact hth.2 3 (by decide)

/-- C10: on a resolved chain, the chapter query checks only
`chapterNumber > programCount`; every `chapterNumber ≤ 0` passes that check
and indexes the 1-based program map below its first entry (undefined
behaviour), so the accesses are in bounds only under
`1 ≤ chapterNumber ≤ programCount`. -/
theorem c10_chapter_lower_bound_unchecked (d : dvd_reader_t) (t : Int)
    (vmg : ifo_handle_t) (srpt : tt_srpt_t) (entry : title_info_t) (vts : ifo_handle_t)
    (pgcit : pgcit_t) (srp0 : pgci_srp_t) (pgc : pgc_t)
    (h0 : d.ifoOpen 0 = some vmg) (h1 : vmg.tt_srpt = some srpt)
    (ht1 : 1 ≤ t) (ht2 : t ≤ (srpt.title.length : Int))
    (hE : listGetUB srpt.title (t - 1) = .ok entry)
    (h2 : d.ifoOpen entry.vts_ttn = some vts)
    (h3 : vts.vts_pgcit = some pgcit)
    (h4 : pgcit.pgci_srp.head? = some srp0)
    (h5 : srp0.pgc = some pgc)
    (hwf : pgcMapWf pgc) :
    (∀ ch : Int, ch ≤ 0 →
      ¬ (ch > (pgc.program_map.length : Int)) ∧ dvdReadChapterNative d t ch = .crash) ∧
    (∀ ch : Int, 1 ≤ ch → ch ≤ (pgc.program_map.length : Int) →
      dvdReadChapterNative d t ch ≠ .crash) := by
  constructor
  · intro ch hch
    refine ⟨by omega, ?_⟩
    exact dvdReadChapterNative_crash_nonpositive d t ch vmg srpt entry vts pgcit srp0 pgc
      h0 h1 ht1 ht2 hE h2 h3 h4 h5 hch
  · intro ch hch1 hch2
    rw [dvdReadChapterNative_ok d t ch vmg srpt entry vts pgcit srp0 pgc
      h0 h1 ht1 ht2 hE h2 h3 h4 h5 hwf hch1 hch2]
    simp

/-- Witness for C10 at the concrete disc: chapter 0 is not rejected and hits
the out-of-bounds map read, chapter 1 is computed safely. -/
theorem c10_witness :
    dvdReadChapterNative discA 1 0 = .crash ∧ dvdReadChapterNative discA 1 1 ≠ .crash := by
  have hth := c10_chapter_lower_bound_unchecked discA 1 vmgA ⟨[⟨1, 1, 1, 2⟩]⟩ ⟨1, 1, 1, 2⟩ vtsA
    ⟨[⟨some pgcA⟩, ⟨some pgcB⟩]⟩ ⟨some pgcA⟩ pgcA rfl rfl (by decide) (by decide) (by decide)
    rfl rfl rfl rfl (by unfold pgcMapWf; decide)
  exact ⟨(hth.1 0 (by decide)).2, hth.2 1 (by decide) (by decide)⟩

theorem collectOffsets_eq_validRanges (pgc : pgc_t) :
    collectOffsets pgc.cell_playback = flattenPairs (validRangesOf pgc) := by
  unfold validRangesOf validCellsOf
  exact collectOffsets_eq_flatten _

theorem cellLoop_eq_validCells (rd : Nat → Nat → Int) (pgc : pgc_t) (total : Nat)
    (sink : List SinkR) :
    cellLoop rd pgc.cell_playback total sink = cellLoop rd (validCellsOf pgc) total sink := by
  unfold validCellsOf
  exact cellLoop_filter_valid rd pgc.cell_playback total sink

/-- C1: whenever `dvdGetVobOffsetsNative` returns an array, the title-set
number leading it and the ordered valid `(first,last)` ranges following it
are exactly the title-set number and chain that `dvdStreamToFdNative`'s
resolution produces for the same title, and the streaming cell loop reads
exactly those valid cells. -/
theorem c1_vob_offsets_match_stream (d : dvd_reader_t) (t : Int) (l : List Int)
    (hok : dvdGetVobOffsetsNative d t = .ok l) :
    ∃ vtsN pgc, streamResolvePgc d t = .ok (vtsN, pgc) ∧
      l = (vtsN : Int) :: flattenPairs (validRangesOf pgc) ∧
      (∀ rd total sink, cellLoop rd pgc.cell_playback total sink =
        cellLoop rd (validCellsOf pgc) total sink) := by
  unfold dvdGetVobOffsetsNative at hok
  cases hres : offsetsResolvePgc d t with
  | absent => rw [hres] at hok; cases hok
  | crash => rw [hres] at hok; cases hok
  | ok vp =>
    obtain ⟨vtsN, pgc⟩ := vp
    rw [hres] at hok
    have hok2 : (if (collectOffsets pgc.cell_playback).isEmpty = true then JRes.absent
        else JRes.ok ((vtsN : Int) :: collectOffsets pgc.cell_playback)) = JRes.ok l := hok
    by_cases hemp : (collectOffsets pgc.cell_playback).isEmpty = true
    · rw [if_pos hemp] at hok2; cases hok2
    · rw [if_neg hemp] at hok2
      refine ⟨vtsN, pgc, ?_, ?_, ?_⟩
      · rw [streamResolve_eq_offsetsResolve]; exact hres
      · cases hok2
        rw [collectOffsets_eq_validRanges]
      · intro rd total sink
        exact cellLoop_eq_validCells rd pgc total sink

/-- Witness for C1 at the concrete disc: the offsets array is the title-set
number 1 followed by the two valid ranges of the resolved chain. -/
theorem c1_witness :
    dvdGetVobOffsetsNative discA 1 = .ok [1, 0, 9, 30, 39] ∧
    (∃ vtsN pgc, streamResolvePgc discA 1 = .ok (vtsN, pgc) ∧
      ([1, 0, 9, 30, 39] : List Int) = (vtsN : Int) :: flattenPairs (validRangesOf pgc) ∧
      (∀ rd total sink, cellLoop rd pgc.cell_playback total sink =
        cellLoop rd (validCellsOf pgc) total sink)) := by
  have h : dvdGetVobOffsetsNative discA 1 = .ok [1, 0, 9, 30, 39] := by decide
  exact ⟨h, c1_vob_offsets_match_stream discA 1 _ h⟩

/-- C6: on a resolved chain, every corrupt cell (`last < first`) is excluded
from the valid-cell list that both the offsets array and the streaming loop
are computed from, every valid sibling stays (in order), the cell loop
behaves as if only the valid cells were present, and with at least one valid
sibling the offsets query still succeeds. -/
theorem c6_corrupt_cells_skipped (d : dvd_reader_t) (t : Int) (vtsN : Nat) (pgc : pgc_t)
    (hres : streamResolvePgc d t = .ok (vtsN, pgc)) :
    collectOffsets pgc.cell_playback = flattenPairs (validRangesOf pgc) ∧
    (∀ c ∈ pgc.cell_playback, c.last_sector < c.first_sector → c ∉ validCellsOf pgc) ∧
    (∀ c ∈ pgc.cell_playback, c.first_sector ≤ c.last_sector → c ∈ validCellsOf pgc) ∧
    (∀ rd total sink, cellLoop rd pgc.cell_playback total sink =
      cellLoop rd (validCellsOf pgc) total sink) ∧
    ((∃ c ∈ pgc.cell_playback, c.first_sector ≤ c.last_sector) →
      dvdGetVobOffsetsNative d t = .ok ((vtsN : Int) :: flattenPairs (validRangesOf pgc))) := by
  refine ⟨collectOffsets_eq_validRanges pgc, ?_, ?_, ?_, ?_⟩
  · intro c _ hbad hmem
    unfold validCellsOf at hmem
    have hkeep := (List.mem_filter.mp hmem).2
    simp only [decide_eq_true_eq] at hkeep
    omega
  · intro c hc hgood
    unfold validCellsOf
    exact List.mem_filter.mpr ⟨hc, by simp [hgood]⟩
  · intro rd total sink
    exact cellLoop_eq_validCells rd pgc total sink
  · rintro ⟨c, hc, hgood⟩
    unfold dvdGetVobOffsetsNative
    rw [streamResolve_eq_offsetsResolve] at hres
    rw [hres]
    have hmem : c ∈ validCellsOf pgc := by
      unfold validCellsOf
      exact List.mem_filter.mpr ⟨hc, by simp [hgood]⟩
    have hne : ¬ (collectOffsets pgc.cell_playback).isEmpty = true := by
      rw [collectOffsets_eq_validRanges]
      unfold validRangesOf
      cases hvl : validCellsOf pgc with
      | nil => rw [hvl] at hmem; cases hmem
      | cons x xs => simp [flattenPairs]
    show (if (collectOffsets pgc.cell_playback).isEmpty = true then JRes.absent
      else JRes.ok ((vtsN : Int) :: collectOffsets pgc.cell_playback)) =
      JRes.ok ((vtsN : Int) :: flattenPairs (validRangesOf pgc))
    rw [if_neg hne, collectOffsets_eq_validRanges]

/-- Witness for C6 at the concrete disc: the resolved chain has a corrupt
middle cell; the query succeeds with only the two valid ranges. -/
theorem c6_witness :
    streamResolvePgc discA 1 = .ok (1, pgcB) ∧
    (∃ c ∈ pgcB.cell_playback, c.first_sector ≤ c.last_sector) ∧
    dvdGetVobOffsetsNative discA 1 = .ok ((1 : Int) :: flattenPairs (validRangesOf pgcB)) := by
  have hres : streamResolvePgc discA 1 = .ok (1, pgcB) := by decide
  have hex : ∃ c ∈ pgcB.cell_playback, c.first_sector ≤ c.last_sector := by decide
  exact ⟨hres, hex, (c6_corrupt_cells_skipped discA 1 1 pgcB hres).2.2.2.2 hex⟩

theorem streamRunOf_ok_inv (d : dvd_reader_t) (t : Int) (rd : Nat → Nat → Int)
    (sink : List SinkR) (out : LoopOut) (h : streamRunOf d t rd sink = .ok out) :
    ∃ vtsN pgc, streamResolvePgc d t = .ok (vtsN, pgc) ∧ d.openTitleVobs vtsN = true ∧
      out = cellLoop rd pgc.cell_playback 0 sink := by
  unfold streamRunOf at h
  cases hres : streamResolvePgc d t with
  | absent => rw [hres] at h; cases h
  | crash => rw [hres] at h; cases h
  | ok vp =>
    obtain ⟨vtsN, pgc⟩ := vp
    rw [hres] at h
    have h2 : (if d.openTitleVobs vtsN = true then JRes.ok (cellLoop rd pgc.cell_playback 0 sink)
        else JRes.absent) = JRes.ok out := h
    by_cases hv : d.openTitleVobs vtsN = true
    · rw [if_pos hv] at h2
      cases h2
      exact ⟨vtsN, pgc, rfl, hv, rfl⟩
    · rw [if_neg hv] at h2
      cases h2

/-- C5: a sink that reports closed (EPIPE) or accepts a zero-length write
after N accepted bytes ends the stream as a normal early termination: the
event trace ends at that very write (no further backend reads), and the
call returns exactly the N bytes the sink accepted before the signal. -/
theorem c5_consumer_closed_returns_accepted (d : dvd_reader_t) (t : Int)
    (rd : Nat → Nat → Int) (sink : List SinkR)
    (hclosed : streamExit d t rd sink = .ok .pipeClosed ∨
      streamExit d t rd sink = .ok .zeroWrite) :
    ∃ pre ev, streamTrace d t rd sink = .ok (pre ++ [Ev.writeEv ev]) ∧
      (ev = SinkR.epipe ∨ ev = SinkR.val 0) ∧
      dvdStreamToFdNative d t rd sink = .ok ((sumAccepted pre : Nat) : Int) := by
  cases hrun : streamRunOf d t rd sink with
  | absent =>
    simp only [streamExit, hrun] at hclosed
    rcases hclosed with h | h <;> cases h
  | crash =>
    simp only [streamExit, hrun] at hclosed
    rcases hclosed with h | h <;> cases h
  | ok out =>
    simp only [streamExit, hrun, JRes.ok.injEq] at hclosed
    obtain ⟨vtsN, pgc, hres, hv, hout⟩ := streamRunOf_ok_inv d t rd sink out hrun
    have hevq : ∃ ev, closingEv out.exitr = some (Ev.writeEv ev) ∧
        (ev = SinkR.epipe ∨ ev = SinkR.val 0) := by
      rcases hclosed with h | h <;> rw [h]
      · exact ⟨SinkR.epipe, rfl, Or.inl rfl⟩
      · exact ⟨SinkR.val 0, rfl, Or.inr rfl⟩
    obtain ⟨ev, hevq, hform⟩ := hevq
    have hpre : ∃ pre, out.evs = pre ++ [Ev.writeEv ev] := by
      rw [hout] at hevq ⊢
      exact cellLoop_closing rd pgc.cell_playback 0 sink _ hevq
    obtain ⟨pre, hpre⟩ := hpre
    have htot : out.total = sumAccepted out.evs := by
      rw [hout]
      have := cellLoop_total rd pgc.cell_playback 0 sink
      simpa using this
    have hsum : sumAccepted out.evs = sumAccepted pre := by
      rw [hpre, sumAccepted_append]
      rcases hform with h | h <;> rw [h] <;> simp [sumAccepted]
    refine ⟨pre, ev, ?_, hform, ?_⟩
    · simp only [streamTrace, hrun]
      rw [hpre]
    · simp only [dvdStreamToFdNative, hrun]
      rw [htot, hsum]

/-- Witness for C5 at the concrete disc: after one successful 10-block read
the sink accepts 5 bytes and then reports EPIPE; the call returns 5. -/
theorem c5_witness :
    (streamExit discA 1 rdGood [SinkR.val 5, SinkR.epipe] = .ok .pipeClosed ∨
      streamExit discA 1 rdGood [SinkR.val 5, SinkR.epipe] = .ok .zeroWrite) ∧
    (∃ pre ev, streamTrace discA 1 rdGood [SinkR.val 5, SinkR.epipe] =
        .ok (pre ++ [Ev.writeEv ev]) ∧
      (ev = SinkR.epipe ∨ ev = SinkR.val 0) ∧
      dvdStreamToFdNative discA 1 rdGood [SinkR.val 5, SinkR.epipe] =
        .ok ((sumAccepted pre : Nat) : Int)) := by
  have h : streamExit discA 1 rdGood [SinkR.val 5, SinkR.epipe] = .ok .pipeClosed := by decide
  exact ⟨Or.inl h,
    c5_consumer_closed_returns_accepted discA 1 rdGood [SinkR.val 5, SinkR.epipe] (Or.inl h)⟩

/-- C4 as stated is false: a write failure with a signal other than
EAGAIN/EWOULDBLOCK and other than EPIPE/zero-length aborts the stream, but
the call returns the bytes written so far (here 0), not the -1 failure
sentinel. -/
theorem c4_counterexample : ¬ (∀ (d : dvd_reader_t) (t : Int) (rd : Nat → Nat → Int)
    (sink : List SinkR), streamExit d t rd sink = .ok .writeError →
    dvdStreamToFdNative d t rd sink = .ok (-1)) := by
  intro hcl
  have h1 : streamExit discA 1 rdGood [SinkR.error] = .ok .writeError := by decide
  have h2 : dvdStreamToFdNative discA 1 rdGood [SinkR.error] = .ok 0 := by decide
  have h3 := hcl discA 1 rdGood [SinkR.error] h1
  rw [h2] at h3
  exact absurd h3 (by decide)

/-- C4 (amended): a write failure with any other signal aborts the stream —
the trace ends at the failing write, with no further backend reads — and
the call returns the non-negative count of bytes written so far, not -1. -/
theorem c4_hard_write_error_aborts (d : dvd_reader_t) (t : Int)
    (rd : Nat → Nat → Int) (sink : List SinkR)
    (herr : streamExit d t rd sink = .ok .writeError) :
    ∃ pre, streamTrace d t rd sink = .ok (pre ++ [Ev.writeEv SinkR.error]) ∧
      dvdStreamToFdNative d t rd sink = .ok ((sumAccepted pre : Nat) : Int) ∧
      0 ≤ ((sumAccepted pre : Nat) : Int) := by
  cases hrun : streamRunOf d t rd sink with
  | absent => simp only [streamExit, hrun] at herr; cases herr
  | crash => simp only [streamExit, hrun] at herr; cases herr
  | ok out =>
    simp only [streamExit, hrun, JRes.ok.injEq] at herr
    obtain ⟨vtsN, pgc, hres, hv, hout⟩ := streamRunOf_ok_inv d t rd sink out hrun
    have hevq : closingEv out.exitr = some (Ev.writeEv SinkR.error) := by rw [herr]; rfl
    have hpre : ∃ pre, out.evs = pre ++ [Ev.writeEv SinkR.error] := by
      rw [hout] at hevq ⊢
      exact cellLoop_closing rd pgc.cell_playback 0 sink _ hevq
    obtain ⟨pre, hpre⟩ := hpre
    have htot : out.total = sumAccepted out.evs := by
      rw [hout]
      have := cellLoop_total rd pgc.cell_playback 0 sink
      simpa using this
    have hsum : sumAccepted out.evs = sumAccepted pre := by
      rw [hpre, sumAccepted_append]
      simp [sumAccepted]
    refine ⟨pre, ?_, ?_, by positivity⟩
    · simp only [streamTrace, hrun]
      rw [hpre]
    · simp only [dvdStreamToFdNative, hrun]
      rw [htot, hsum]

/-- Witness for C4 (amended) at the concrete disc: a hard write error on the
first write returns 0 bytes, not -1. -/
theorem c4_witness :
    streamExit discA 1 rdGood [SinkR.error] = .ok .writeError ∧
    (∃ pre, streamTrace discA 1 rdGood [SinkR.error] =
        .ok (pre ++ [Ev.writeEv SinkR.error]) ∧
      dvdStreamToFdNative discA 1 rdGood [SinkR.error] =
        .ok ((sumAccepted pre : Nat) : Int) ∧
      0 ≤ ((sumAccepted pre : Nat) : Int)) := by
  have h : streamExit discA 1 rdGood [SinkR.error] = .ok .writeError := by decide
  exact ⟨h, c4_hard_write_error_aborts discA 1 rdGood [SinkR.error] h⟩

/-- C3 as stated is false: the title query does not use the shared
program-chain resolution.  On the concrete disc the part-of-title table maps
the title to chain 2 (two chapters resolve to one chapter there), yet the
title query reports the first chain's data. -/
theorem c3_counterexample : ¬ (∀ (d : dvd_reader_t) (t : Int) (vtsN : Nat) (pgc : pgc_t),
    streamResolvePgc d t = .ok (vtsN, pgc) →
    dvdReadTitleNative d t = .ok ⟨t, pgc.program_map.length, dvdTimeToMs pgc.playback_time⟩) := by
  intro hcl
  have h1 : streamResolvePgc discA 1 = .ok (1, pgcB) := by decide
  have h2 := hcl discA 1 1 pgcB h1
  have h3 : dvdReadTitleNative discA 1 = .ok ⟨1, 2, 5000⟩ := by decide
  rw [h3] at h2
  exact absurd h2 (by decide)

/-- C3 (amended): the title query validates the title number, opens the
title set indexed by the in-set title number (`vts_ttn`, not
`title_set_nr`), and always reads chapter count and duration from the first
chain of that set's chain table, without consulting the part-of-title
table. -/
theorem c3_titleInfo_uses_first_chain (d : dvd_reader_t) (t : Int)
    (vmg : ifo_handle_t) (srpt : tt_srpt_t) (entry : title_info_t) (vts : ifo_handle_t)
    (pgcit : pgcit_t) (srp0 : pgci_srp_t) (pgc : pgc_t)
    (h0 : d.ifoOpen 0 = some vmg) (h1 : vmg.tt_srpt = some srpt)
    (ht1 : 1 ≤ t) (ht2 : t ≤ (srpt.title.length : Int))
    (hE : listGetUB srpt.title (t - 1) = .ok entry)
    (h2v : d.ifoOpen entry.vts_ttn = some vts)
    (h3 : vts.vts_pgcit = some pgcit)
    (h4 : pgcit.pgci_srp.head? = some srp0)
    (h5 : srp0.pgc = some pgc) :
    dvdReadTitleNative d t = .ok ⟨t, pgc.program_map.length, dvdTimeToMs pgc.playback_time⟩ := by
  have hlt1 : ¬ (t < 1) := by omega
  have hlt2 : ¬ (t > (srpt.title.length : Int)) := by omega
  simp only [dvdReadTitleNative, h0, if_neg hlt1, h1, if_neg hlt2, hE]
  simp only [h2v, h3, h4, h5]

/-- Witness for the amended C3 at the concrete disc: the title query reports
the first chain (2 chapters, 5000 ms), not the chain the part-of-title
table selects. -/
theorem c3_witness :
    dvdReadTitleNative discA 1 =
      .ok ⟨1, pgcA.program_map.length, dvdTimeToMs pgcA.playback_time⟩ :=
  c3_titleInfo_uses_first_chain discA 1 vmgA ⟨[⟨1, 1, 1, 2⟩]⟩ ⟨1, 1, 1, 2⟩ vtsA
    ⟨[⟨some pgcA⟩, ⟨some pgcB⟩]⟩ ⟨some pgcA⟩ pgcA rfl rfl (by decide) (by decide) (by decide)
    rfl rfl rfl rfl

/-- C7: at a handle whose VMG opened but whose title table is absent — the
missing-table situation the spec's catalog reader must survive (§4.3) —
`titleCount` is 0, so `titleNumber = 1` is out of range; the four queries
that null-check the title table return their sentinel, but the title and
chapter queries dereference the absent table unchecked (undefined
behaviour) instead.  With the table present (the concrete disc, title 99
out of range) all six return their sentinel. -/
theorem c7_absent_title_table_crash :
    (dvdGetTitleCountNative discN = 0 ∧
     dvdReadTitleNative discN 1 = .crash ∧
     dvdReadChapterNative discN 1 1 = .crash ∧
     dvdGetAudioTracksNative discN 1 = .absent ∧
     dvdGetSubtitleTracksNative discN 1 = .absent ∧
     dvdGetVobOffsetsNative discN 1 = .absent ∧
     dvdStreamToFdNative discN 1 rdGood [] = .ok (-1)) ∧
    (dvdGetTitleCountNative discA = 1 ∧
     dvdReadTitleNative discA 99 = .absent ∧
     dvdReadChapterNative discA 99 1 = .absent ∧
     dvdGetAudioTracksNative discA 99 = .absent ∧
     dvdGetSubtitleTracksNative discA 99 = .absent ∧
     dvdGetVobOffsetsNative discA 99 = .absent ∧
     dvdStreamToFdNative discA 99 rdGood [] = .ok (-1)) := by
  decide
